import Mathlib

/-!
Verification of the SmallSpaces server core (design record store and
analytics aggregation engine), shallowly embedded from `src/server.js`.

Conventions of the embedding:
* Timestamps (`new Date().toISOString()` strings) are modelled as integer
  milliseconds since the epoch; comparison of ISO strings agrees with
  comparison of their millisecond values.
* JavaScript scalar values occurring in `properties` are modelled by `JSVal`
  (string / number / boolean / null), with JS truthiness and JS
  string-coercion (object keys are strings) made explicit.
* A JS object used as a string-keyed map is modelled as an association list
  whose keys are unique by construction (first-match update).
* Optional request-body fields (destructured, possibly `undefined`) are
  `Option`-typed; the JS `x || d` default idiom on strings is `jsOr`.
* `new Date(now.getFullYear(), now.getMonth(), now.getDate())` is the most
  recent server-local midnight; we model the server clock with a fixed UTC
  offset of `tz` minutes, under which that construction is `localMidnight`.
-/

namespace SmallSpaces

/-- Scalar JavaScript value as found in analytics event properties. -/
inductive JSVal where
  | str (s : String)
  | num (n : Int)
  | bool (b : Bool)
  | null
deriving Repr, DecidableEq

/-- JS truthiness of a scalar value. -/
def JSVal.truthy : JSVal → Bool
  | .str s => !(s = "")
  | .num n => !(n = 0)
  | .bool b => b
  | .null => false

/-- JS string coercion applied when a value is used as an object key. -/
def JSVal.keyString : JSVal → String
  | .str s => s
  | .num n => toString n
  | .bool b => if b then "true" else "false"
  | .null => "null"

/-- The JS `x || d` default idiom for an optional string field: the default
is used when the field is absent or the empty string (both falsy). -/
def jsOr (x : Option String) (d : String) : String :=
  match x with
  | some s => if s = "" then d else s
  | none => d

/-- Lookup of a property in a JS-object association list. -/
def getProp (props : List (String × JSVal)) (k : String) : Option JSVal :=
  match props.find? (fun p => p.1 = k) with
  | some p => some p.2
  | none => none

/-- The JS `m[k] = (m[k] || 0) + 1` counting idiom on an object used as a
map: increment the existing entry, or append a fresh entry with count 1. -/
def bump {α : Type} [DecidableEq α] : List (α × Nat) → α → List (α × Nat)
  | [], k => [(k, 1)]
  | p :: rest, k =>
      if p.1 = k then (p.1, p.2 + 1) :: rest else p :: bump rest k

/-- Frequency table of a list of keys, built by repeated `bump` (the JS
`for` loop filling a count object). Entry order is first-occurrence order,
as for JS object insertion order. -/
def countKeys {α : Type} [DecidableEq α] (l : List α) : List (α × Nat) :=
  l.foldl bump []

/-- Insert an entry into a count-descending list: before the first entry
with a strictly smaller count, hence after all entries with a count at
least as large (preserving original order among equal counts). -/
def insertByCount {α : Type} (p : α × Nat) : List (α × Nat) → List (α × Nat)
  | [] => [p]
  | q :: rest => if q.2 < p.2 then p :: q :: rest else q :: insertByCount p rest

/-- The JS stable `.sort((a, b) => b[1] - a[1])` on `Object.entries`: sort
the entries of a frequency table by count, largest first, keeping the
original (insertion) order among entries with equal counts. -/
def sortByCountDesc {α : Type} (m : List (α × Nat)) : List (α × Nat) :=
  m.foldl (fun acc p => insertByCount p acc) []

/-! ## Design record store (`metadata.json` records) -/

/-- One design record of the metadata collection. -/
structure Design where
  id : String
  title : String
  description : String
  author_name : String
  level : String
  download_count : Int
  upload_date : Int
  thumbnail_url : Option String
  christmas_event : Bool
deriving Repr, DecidableEq

/-- Store state: the metadata collection plus the ids that have a saved
`.sav` blob file in the designs directory. -/
structure DesignsState where
  metadata : List Design
  files : List String
deriving Repr, DecidableEq

/-- Request body of `POST /api/designs` (destructured fields; absent fields
are `none`). The blob payload is abstracted to its presence, and the image
pipeline's output to the `thumbnailUrl` it produced (`none` when no
thumbnail was supplied or compression failed). -/
structure UploadReq where
  designId : Option String
  title : Option String
  hasSaveData : Bool
  description : Option String
  authorName : Option String
  level : Option String
  thumbnailUrl : Option String
  christmasEvent : Option Bool
deriving Repr, DecidableEq

/-- Replace the first design whose id matches, using `f`; `none` if no
design matches (the `findIndex` / update-at-index idiom). -/
def updateFirst (f : Design → Design) : List Design → String → Option (List Design × Design)
  | [], _ => none
  | d :: rest, i =>
      if d.id = i then
        some (f d :: rest, f d)
      else
        match updateFirst f rest i with
        | some (rest', d') => some (d :: rest', d')
        | none => none

/-- The update branch of the upload handler: the merged record that replaces
an existing design (preserve `download_count`, conditionally replace
`thumbnail_url`, stamp `upload_date` with now). -/
def mergeDesign (req : UploadReq) (now : Int) (fid : String) (ex : Design) : Design :=
  { id := fid
    title := jsOr req.title "Untitled Design"
    description := jsOr req.description ""
    author_name := jsOr req.authorName "Anonymous"
    level := jsOr req.level ""
    download_count := ex.download_count
    upload_date := now
    thumbnail_url :=
      match req.thumbnailUrl with
      | some u => if u = "" then ex.thumbnail_url else some u
      | none => ex.thumbnail_url
    christmas_event := req.christmasEvent = some true }

/-- The create branch of the upload handler: a fresh record with
`download_count = 0`. -/
def newDesign (req : UploadReq) (now : Int) (fid : String) : Design :=
  { id := fid
    title := jsOr req.title "Untitled Design"
    description := jsOr req.description ""
    author_name := jsOr req.authorName "Anonymous"
    level := jsOr req.level ""
    download_count := 0
    upload_date := now
    thumbnail_url := req.thumbnailUrl
    christmas_event := req.christmasEvent = some true }

/-- `POST /api/designs` (upload/upsert). Returns the new state and whether
the call was an update; `Except.error` is the 400 validation failure. -/
def designUpsert (s : DesignsState) (req : UploadReq) (now : Int) (fresh : String) :
    Except String (DesignsState × Bool) :=
  if jsOr req.title "" = "" ∨ !req.hasSaveData then
    .error "Title and saveData are required"
  else
    let fid := jsOr req.designId fresh
    let files' := if fid ∈ s.files then s.files else s.files ++ [fid]
    match updateFirst (mergeDesign req now fid) s.metadata fid with
    | some (meta', _) => .ok (⟨meta', files'⟩, true)
    | none => .ok (⟨s.metadata ++ [newDesign req now fid], files'⟩, false)

/-- Result of `POST /api/designs/:id/download`: the updated state and the
metadata record returned alongside the save data, when one was found. -/
structure DownloadResult where
  state : DesignsState
  returned : Option Design
deriving Repr, DecidableEq

/-- `POST /api/designs/:id/download`. 404 when the `.sav` blob is missing;
otherwise increment the matching record's counter (when a record exists)
and return it. -/
def designDownload (s : DesignsState) (designId : String) :
    Except String DownloadResult :=
  if designId ∈ s.files then
    match updateFirst (fun d => { d with download_count := d.download_count + 1 })
        s.metadata designId with
    | some (meta', d') => .ok ⟨⟨meta', s.files⟩, some d'⟩
    | none => .ok ⟨s, none⟩
  else
    .error "Design not found"

/-- The like-counter update of `POST /api/designs/:id/like`: add the
increment, then clamp a negative result to 0. -/
def likeUpdate (inc : Int) (d : Design) : Design :=
  let c := d.download_count + inc
  { d with download_count := if c < 0 then 0 else c }

/-- `POST /api/designs/:id/like`. 404 when no record matches; otherwise
update the counter, persist, and return the new count. -/
def adjustLike (meta : List Design) (designId : String) (inc : Int) :
    Except String (List Design × Int) :=
  match updateFirst (likeUpdate inc) meta designId with
  | some (meta', d') => .ok (meta', d'.download_count)
  | none => .error "Design not found"

/-! ## Telemetry log (analytics events and sessions) -/

/-- A stored analytics event (`events.json`). Batch ingestion performs no
`event_name` validation, so a stored event's `event_name` may be absent. -/
structure AEvent where
  id : String
  session_id : String
  event_name : Option String
  properties : Option (List (String × JSVal))
  timestamp : Int
  client_version : String
  platform : String
deriving Repr, DecidableEq

/-- A stored analytics session (`sessions.json`). -/
structure ASession where
  id : String
  start_time : Int
  end_time : Option Int
  client_version : String
  platform : String
  metadata : List (String × JSVal)
  event_count : Nat
deriving Repr, DecidableEq

/-- Request body of a single tracked event; also the per-element shape of a
batch request's `events` array (which may carry its own `timestamp`). -/
structure EventReq where
  session_id : Option String
  event_name : Option String
  properties : Option (List (String × JSVal))
  timestamp : Option Int
  client_version : Option String
  platform : Option String
deriving Repr, DecidableEq

/-- `POST /api/analytics/event`. Rejects a missing (or empty, hence falsy)
`event_name` with a 400; otherwise fills defaults, assigns the fresh id,
appends and persists. The caller-supplied `timestamp` is not read here:
the single-event handler always stamps now. -/
def appendEvent (events : List AEvent) (req : EventReq) (now : Int) (fresh : String) :
    Except String (List AEvent × String) :=
  match req.event_name with
  | none => .error "event_name is required"
  | some n =>
      if n = "" then .error "event_name is required"
      else
        let ev : AEvent :=
          { id := fresh
            session_id := jsOr req.session_id "anonymous"
            event_name := some n
            properties := some (req.properties.getD [])
            timestamp := now
            client_version := jsOr req.client_version "unknown"
            platform := jsOr req.platform "unknown" }
        .ok (events ++ [ev], fresh)

/-- Processing of one element of a batch request: per-event fields win over
batch-level fields, which win over the hard defaults; `event_name` is
copied through unvalidated; `timestamp` defaults to now. -/
def batchElem (sid cv pf : Option String) (now : Int) (fresh : String)
    (e : EventReq) : AEvent :=
  { id := fresh
    session_id := jsOr e.session_id (jsOr sid "anonymous")
    event_name := e.event_name
    properties := some (e.properties.getD [])
    timestamp := e.timestamp.getD now
    client_version := jsOr e.client_version (jsOr cv "unknown")
    platform := jsOr e.platform (jsOr pf "unknown") }

/-- The batch loop: process each element in order, drawing the fresh id for
the element at (0-based) position `i` from the supply. -/
def batchProcess (sid cv pf : Option String) (now : Int) (fresh : Nat → String) :
    Nat → List EventReq → List AEvent
  | _, [] => []
  | i, e :: rest =>
      batchElem sid cv pf now (fresh i) e :: batchProcess sid cv pf now fresh (i + 1) rest

/-- `POST /api/analytics/batch`. Only the presence of the `events` array is
validated; every element is appended after default-filling, with fresh ids
drawn from the supply `fresh` by position. -/
def appendBatch (events : List AEvent) (batch : Option (List EventReq))
    (sid cv pf : Option String) (now : Int) (fresh : Nat → String) :
    Except String (List AEvent × Nat) :=
  match batch with
  | none => .error "events array is required"
  | some l =>
      let processed := batchProcess sid cv pf now fresh 0 l
      .ok (events ++ processed, processed.length)

/-- Replace the first session whose id matches, using `f`; `none` if no
session matches. -/
def updateFirstSession (f : ASession → ASession) :
    List ASession → String → Option (List ASession × ASession)
  | [], _ => none
  | s :: rest, i =>
      if s.id = i then
        some (f s :: rest, f s)
      else
        match updateFirstSession f rest i with
        | some (rest', s') => some (s :: rest', s')
        | none => none

/-- `POST /api/analytics/session/end`. 400 on a falsy `session_id`, 404 when
no session matches; otherwise unconditionally set `end_time := now` and
snapshot `event_count` from the current event log, then persist. -/
def endSession (sessions : List ASession) (events : List AEvent)
    (session_id : Option String) (now : Int) :
    Except String (List ASession × ASession) :=
  match session_id with
  | none => .error "session_id is required"
  | some sid =>
      if sid = "" then .error "session_id is required"
      else
        let f := fun s =>
          { s with
              end_time := some now
              event_count := (events.filter (fun e => e.session_id = sid)).length }
        match updateFirstSession f sessions sid with
        | some (sessions', s') => .ok (sessions', s')
        | none => .error "Session not found"

/-! ## Aggregation engine -/

/-- Milliseconds in a day. -/
def msPerDay : Int := 86400000

/-- The instant `new Date(now.getFullYear(), now.getMonth(), now.getDate())`
for a server clock at a fixed UTC offset of `tz` minutes: the most recent
server-local midnight at or before `now`. -/
def localMidnight (now tz : Int) : Int :=
  ((now + tz * 60000) / msPerDay) * msPerDay - tz * 60000

/-- Midnight of `now`'s UTC day (the anchor the spec describes). -/
def utcMidnight (now : Int) : Int :=
  (now / msPerDay) * msPerDay

/-- Events with timestamp at or after `lo` (the `>=` filters of the
summary). -/
def countSince (events : List AEvent) (lo : Int) : Nat :=
  (events.filter (fun e => lo ≤ e.timestamp)).length

/-- Events with timestamp in the half-open window `[lo, hi)` (the per-day
filter of `events_per_day`). -/
def countBetween (events : List AEvent) (lo hi : Int) : Nat :=
  (events.filter (fun e => lo ≤ e.timestamp && e.timestamp < hi)).length

/-- `events.today` of the summary: events since the summary's day anchor,
which is the server-local midnight. -/
def summaryEventsToday (events : List AEvent) (now tz : Int) : Nat :=
  countSince events (localMidnight now tz)

/-- `events.this_week` of the summary: events since the anchor minus 7
days. -/
def summaryEventsThisWeek (events : List AEvent) (now tz : Int) : Nat :=
  countSince events (localMidnight now tz - 7 * msPerDay)

/-- `events.this_month` of the summary: events since the anchor minus 30
days. -/
def summaryEventsThisMonth (events : List AEvent) (now tz : Int) : Nat :=
  countSince events (localMidnight now tz - 30 * msPerDay)

/-- `top_events` of the summary: the event-name frequency table sorted by
count descending, truncated to the first 10 entries. -/
def summaryTopEvents (events : List AEvent) : List (Option String × Nat) :=
  (sortByCountDesc (countKeys (events.map (fun e => e.event_name)))).take 10

/-- One `events_per_day` entry, as (UTC day number of the entry's
`dayStart`, count of events within that local day). The day number is the
`toISOString().split('T')[0]` date of the instant. -/
def perDayEntry (events : List AEvent) (dayStart : Int) : Int × Nat :=
  (dayStart / msPerDay, countBetween events dayStart (dayStart + msPerDay))

/-- `events_per_day` of the summary: one entry per `i = 6 .. 0` (the
`for (let i = 6; i >= 0; i--)` loop), for the local day starting at the
anchor minus `i` days. -/
def eventsPerDay (events : List AEvent) (now tz : Int) : List (Int × Nat) :=
  ([6, 5, 4, 3, 2, 1, 0] : List Int).map
    (fun i => perDayEntry events (localMidnight now tz - i * msPerDay))

/-- The value an event contributes to a single-property breakdown: the JS
`event.properties?.[propertyName] || '(empty)'` followed by object-key
string coercion — `"(empty)"` when the property is missing or its value is
falsy, the value's string form otherwise. -/
def bucketValue (prop : String) (e : AEvent) : String :=
  match e.properties with
  | none => "(empty)"
  | some ps =>
      match getProp ps prop with
      | none => "(empty)"
      | some v => if v.truthy then v.keyString else "(empty)"

/-- Removal of a property key from a properties object (used to state that
a falsy value is counted exactly as if the property were missing). -/
def removeProp (ps : List (String × JSVal)) (k : String) : List (String × JSVal) :=
  ps.filter (fun p => !(decide (p.1 = k)))

/-- The events matching a breakdown request's `event_name`. -/
def matchingEvents (events : List AEvent) (name : String) : List AEvent :=
  events.filter (fun e => e.event_name = some name)

/-- `GET /api/analytics/event-breakdown` with a specific `property`: the
frequency table of bucketed values over the matching events, sorted by
count descending, with no truncation. -/
def eventBreakdownSingle (events : List AEvent) (name : String) (prop : String) :
    List (String × Nat) :=
  sortByCountDesc (countKeys ((matchingEvents events name).map (bucketValue prop)))

/-! ## Helper lemmas: frequency tables -/

theorem bump_sum {α : Type} [DecidableEq α] (m : List (α × Nat)) (k : α) :
    ((bump m k).map (fun p => p.2)).sum = ((m.map (fun p => p.2)).sum) + 1 := by
  induction m with
  | nil => simp [bump]
  | cons p rest ih =>
      by_cases h : p.1 = k
      · simp [bump, h]
        omega
      · simp [bump, h, ih]
        omega

theorem foldl_bump_sum {α : Type} [DecidableEq α] (l : List α) (m : List (α × Nat)) :
    ((l.foldl bump m).map (fun p => p.2)).sum = (m.map (fun p => p.2)).sum + l.length := by
  induction l generalizing m with
  | nil => simp
  | cons a t ih => simp [List.foldl_cons, ih, bump_sum]; omega

theorem countKeys_sum {α : Type} [DecidableEq α] (l : List α) :
    ((countKeys l).map (fun p => p.2)).sum = l.length := by
  simpa using foldl_bump_sum l []

theorem keys_bump_self {α : Type} [DecidableEq α] (m : List (α × Nat)) (k : α) :
    k ∈ (bump m k).map (fun p => p.1) := by
  induction m with
  | nil => simp [bump]
  | cons p rest ih =>
      by_cases h : p.1 = k <;> simp [bump, h, ih]

theorem keys_bump_mono {α : Type} [DecidableEq α] (m : List (α × Nat)) (k a : α)
    (h : a ∈ m.map (fun p => p.1)) : a ∈ (bump m k).map (fun p => p.1) := by
  induction m with
  | nil => simp at h
  | cons p rest ih =>
      by_cases hp : p.1 = k
      · simpa [bump, hp] using h
      · rcases List.mem_map.mp h with ⟨q, hq, hqa⟩
        rcases List.mem_cons.mp hq with hq1 | hq2
        · subst hq1; simp [bump, hp, hqa.symm]
        · have := ih (List.mem_map.mpr ⟨q, hq2, hqa⟩)
          simp [bump, hp]
          simp at this
          tauto

theorem keys_foldl_bump {α : Type} [DecidableEq α] (l : List α) (m : List (α × Nat)) (a : α)
    (h : a ∈ m.map (fun p => p.1) ∨ a ∈ l) :
    a ∈ (l.foldl bump m).map (fun p => p.1) := by
  induction l generalizing m with
  | nil => simpa using h.resolve_right (by simp)
  | cons b t ih =>
      rcases h with hm | hl
      · exact ih (bump m b) (Or.inl (keys_bump_mono m b a hm))
      · rcases List.mem_cons.mp hl with rfl | ht
        · exact ih (bump m a) (Or.inl (keys_bump_self m a))
        · exact ih (bump m b) (Or.inr ht)

theorem countKeys_keys_of_mem {α : Type} [DecidableEq α] (l : List α) (a : α) (h : a ∈ l) :
    a ∈ (countKeys l).map (fun p => p.1) :=
  keys_foldl_bump l [] a (Or.inr h)

theorem mem_bump_keys_sub {α : Type} [DecidableEq α] (m : List (α × Nat)) (k : α)
    (q : α × Nat) (h : q ∈ bump m k) : q.1 = k ∨ q.1 ∈ m.map (fun p => p.1) := by
  induction m with
  | nil => simp [bump] at h; simp [h]
  | cons p rest ih =>
      by_cases hp : p.1 = k
      · simp [bump, hp] at h
        rcases h with h1 | h2
        · left; rw [h1]
        · right; exact List.mem_map.mpr ⟨q, List.mem_cons_of_mem p h2, rfl⟩
      · simp [bump, hp] at h
        rcases h with h1 | h2
        · right; rw [h1]; simp
        · rcases ih h2 with h3 | h4
          · exact Or.inl h3
          · right; simp; right; simpa using h4

theorem mem_foldl_bump_keys_sub {α : Type} [DecidableEq α] (l : List α) (m : List (α × Nat))
    (q : α × Nat) (h : q ∈ l.foldl bump m) :
    q.1 ∈ m.map (fun p => p.1) ∨ q.1 ∈ l := by
  induction l generalizing m with
  | nil => simp at h; exact Or.inl (List.mem_map.mpr ⟨q, h, rfl⟩)
  | cons b t ih =>
      rcases ih (bump m b) h with h1 | h2
      · rcases List.mem_map.mp h1 with ⟨p, hp, hpq⟩
        rcases mem_bump_keys_sub m b p hp with h3 | h4
        · right; simp [← hpq, h3]
        · left; rw [← hpq]; exact h4
      · right; exact List.mem_cons_of_mem b h2

theorem mem_countKeys_keys_sub {α : Type} [DecidableEq α] (l : List α) (q : α × Nat)
    (h : q ∈ countKeys l) : q.1 ∈ l := by
  rcases mem_foldl_bump_keys_sub l [] q h with h1 | h2
  · simp at h1
  · exact h2

/-! ## Helper lemmas: the count-descending sort -/

theorem insertByCount_perm {α : Type} (p : α × Nat) (l : List (α × Nat)) :
    List.Perm (insertByCount p l) (p :: l) := by
  induction l with
  | nil => simp [insertByCount]
  | cons q rest ih =>
      by_cases h : q.2 < p.2
      · simp [insertByCount, h]
      · simp only [insertByCount, if_neg h]
        exact (ih.cons q).trans (List.Perm.swap p q rest)

theorem sortByCountDesc_aux_perm {α : Type} (l acc : List (α × Nat)) :
    List.Perm (l.foldl (fun acc p => insertByCount p acc) acc) (acc ++ l) := by
  induction l generalizing acc with
  | nil => simp
  | cons p t ih =>
      have h1 : (p :: t).foldl (fun acc p => insertByCount p acc) acc
          = t.foldl (fun acc p => insertByCount p acc) (insertByCount p acc) := by
        simp [List.foldl_cons]
      rw [h1]
      refine ((ih (insertByCount p acc)).trans ?_)
      refine ((insertByCount_perm p acc).append_right t).trans ?_
      exact (List.perm_middle).symm

theorem sortByCountDesc_perm {α : Type} (m : List (α × Nat)) :
    List.Perm (sortByCountDesc m) m := by
  simpa using sortByCountDesc_aux_perm m []

theorem insertByCount_sorted {α : Type} (p : α × Nat) (l : List (α × Nat))
    (h : l.Pairwise (fun a b => b.2 ≤ a.2)) :
    (insertByCount p l).Pairwise (fun a b => b.2 ≤ a.2) := by
  induction l with
  | nil => simp [insertByCount]
  | cons q rest ih =>
      rcases List.pairwise_cons.mp h with ⟨hq, hrest⟩
      by_cases hlt : q.2 < p.2
      · simp only [insertByCount, if_pos hlt]
        refine List.pairwise_cons.mpr ⟨?_, h⟩
        intro x hx
        rcases List.mem_cons.mp hx with rfl | hx2
        · omega
        · have := hq x hx2
          omega
      · simp only [insertByCount, if_neg hlt]
        refine List.pairwise_cons.mpr ⟨?_, ih hrest⟩
        intro x hx
        rcases List.mem_cons.mp ((insertByCount_perm p rest).mem_iff.mp hx) with rfl | hx2
        · omega
        · exact hq x hx2

theorem sortByCountDesc_aux_sorted {α : Type} (l acc : List (α × Nat))
    (h : acc.Pairwise (fun a b => b.2 ≤ a.2)) :
    (l.foldl (fun acc p => insertByCount p acc) acc).Pairwise (fun a b => b.2 ≤ a.2) := by
  induction l generalizing acc with
  | nil => simpa using h
  | cons p t ih => exact ih (insertByCount p acc) (insertByCount_sorted p acc h)

theorem sortByCountDesc_sorted {α : Type} (m : List (α × Nat)) :
    (sortByCountDesc m).Pairwise (fun a b => b.2 ≤ a.2) :=
  sortByCountDesc_aux_sorted m [] (by simp)

/-! ## Helper lemmas: interval counting -/

theorem countBetween_split (ev : List AEvent) (a b c : Int) (hab : a ≤ b) (hbc : b ≤ c) :
    countBetween ev a b + countBetween ev b c = countBetween ev a c := by
  induction ev with
  | nil => rfl
  | cons e t ih =>
      simp only [countBetween, List.filter_cons] at *
      by_cases h1 : a ≤ e.timestamp
      · by_cases h2 : e.timestamp < b
        · have h3 : e.timestamp < c := by omega
          have h4 : ¬ b ≤ e.timestamp := by omega
          simp [h1, h2, h3, h4]
          omega
        · by_cases h3 : e.timestamp < c
          · have h4 : b ≤ e.timestamp := by omega
            simp [h1, h2, h3, h4]
            omega
          · have h4 : ¬ e.timestamp < b := by omega
            simp [h1, h2, h3, h4]
            omega
      · have h2 : ¬ b ≤ e.timestamp := by omega
        simp [h1, h2]
        omega

/-! ## Helper lemmas: first-match updates -/

theorem updateFirst_eq_none (f : Design → Design) (meta : List Design) (i : String)
    (h : ∀ d ∈ meta, d.id ≠ i) : updateFirst f meta i = none := by
  induction meta with
  | nil => rfl
  | cons d rest ih =>
      have hd : d.id ≠ i := h d (by simp)
      simp only [updateFirst, if_neg hd]
      rw [ih (fun d' hd' => h d' (List.mem_cons_of_mem d hd'))]

theorem updateFirst_eq_some (f : Design → Design) (pre post : List Design) (d : Design)
    (i : String) (hpre : ∀ d' ∈ pre, d'.id ≠ i) (hd : d.id = i) :
    updateFirst f (pre ++ d :: post) i = some (pre ++ f d :: post, f d) := by
  induction pre with
  | nil => simp [updateFirst, hd]
  | cons p rest ih =>
      have hp : p.id ≠ i := hpre p (by simp)
      have hih := ih (fun d' hd' => hpre d' (List.mem_cons_of_mem p hd'))
      simp only [List.cons_append, updateFirst, if_neg hp, List.append_eq, hih]

theorem updateFirst_mem (f : Design → Design) (meta : List Design) (i : String)
    (meta' : List Design) (d' : Design) (h : updateFirst f meta i = some (meta', d'))
    (x : Design) (hx : x ∈ meta') : x ∈ meta ∨ ∃ y, y ∈ meta ∧ x = f y := by
  induction meta generalizing meta' with
  | nil => simp [updateFirst] at h
  | cons d rest ih =>
      by_cases hd : d.id = i
      · simp only [updateFirst, if_pos hd, Option.some.injEq, Prod.mk.injEq] at h
        rcases h with ⟨hm, hd2⟩
        subst hm
        rcases List.mem_cons.mp hx with rfl | hx2
        · exact Or.inr ⟨d, by simp, rfl⟩
        · exact Or.inl (List.mem_cons_of_mem d hx2)
      · simp only [updateFirst, if_neg hd] at h
        cases hu : updateFirst f rest i with
        | none => rw [hu] at h; simp at h
        | some pr =>
            rcases pr with ⟨m2, d2⟩
            rw [hu] at h
            simp only [Option.some.injEq, Prod.mk.injEq] at h
            rcases h with ⟨hm, hd2⟩
            subst hm
            subst hd2
            rcases List.mem_cons.mp hx with rfl | hx2
            · exact Or.inl (by simp)
            · rcases ih m2 hu hx2 with h1 | ⟨y, hy, hxy⟩
              · exact Or.inl (List.mem_cons_of_mem d h1)
              · exact Or.inr ⟨y, List.mem_cons_of_mem d hy, hxy⟩

theorem updateFirstSession_eq_none (f : ASession → ASession) (l : List ASession) (i : String)
    (h : ∀ s ∈ l, s.id ≠ i) : updateFirstSession f l i = none := by
  induction l with
  | nil => rfl
  | cons s rest ih =>
      have hs : s.id ≠ i := h s (by simp)
      simp only [updateFirstSession, if_neg hs]
      rw [ih (fun s' hs' => h s' (List.mem_cons_of_mem s hs'))]

theorem updateFirstSession_eq_some (f : ASession → ASession) (pre post : List ASession)
    (s : ASession) (i : String) (hpre : ∀ s' ∈ pre, s'.id ≠ i) (hs : s.id = i) :
    updateFirstSession f (pre ++ s :: post) i = some (pre ++ f s :: post, f s) := by
  induction pre with
  | nil => simp [updateFirstSession, hs]
  | cons p rest ih =>
      have hp : p.id ≠ i := hpre p (by simp)
      have hih := ih (fun s' hs' => hpre s' (List.mem_cons_of_mem p hs'))
      simp only [List.cons_append, updateFirstSession, if_neg hp, List.append_eq, hih]

/-! ## Helper lemmas: properties, batches, like counters -/

theorem getProp_removeProp (ps : List (String × JSVal)) (k : String) :
    getProp (removeProp ps k) k = none := by
  induction ps with
  | nil => rfl
  | cons p rest ih =>
      by_cases h : p.1 = k
      · simpa [removeProp, h] using ih
      · simpa [removeProp, getProp, List.find?, h] using ih

theorem batchProcess_names (sid cv pf : Option String) (now : Int) (fresh : Nat → String)
    (i : Nat) (l : List EventReq) :
    (batchProcess sid cv pf now fresh i l).map (fun ev => ev.event_name)
      = l.map (fun e => e.event_name) := by
  induction l generalizing i with
  | nil => rfl
  | cons e rest ih => simp [batchProcess, batchElem, ih]

theorem batchProcess_length (sid cv pf : Option String) (now : Int) (fresh : Nat → String)
    (i : Nat) (l : List EventReq) :
    (batchProcess sid cv pf now fresh i l).length = l.length := by
  induction l generalizing i with
  | nil => rfl
  | cons e rest ih => simp [batchProcess, ih]

theorem likeUpdate_nonneg (inc : Int) (d : Design) :
    0 ≤ (likeUpdate inc d).download_count := by
  simp only [likeUpdate]
  by_cases h : d.download_count + inc < 0
  · simp [h]
  · simp [h]; omega

theorem adjustLike_step_nonneg (meta : List Design) (i : String) (inc : Int)
    (meta' : List Design) (c : Int) (h : adjustLike meta i inc = .ok (meta', c))
    (hm : ∀ d ∈ meta, 0 ≤ d.download_count) : ∀ d ∈ meta', 0 ≤ d.download_count := by
  intro x hx
  simp only [adjustLike] at h
  cases hu : updateFirst (likeUpdate inc) meta i with
  | none => rw [hu] at h; simp at h
  | some pr =>
      rw [hu] at h
      simp only [Except.ok.injEq, Prod.mk.injEq] at h
      rcases h with ⟨hm', _⟩
      subst hm'
      rcases updateFirst_mem (likeUpdate inc) meta i pr.1 pr.2 (by rw [hu]) x hx with
        h1 | ⟨y, _, hxy⟩
      · exact hm x h1
      · rw [hxy]; exact likeUpdate_nonneg inc y

theorem adjustLike_fold_nonneg (deltas : List Int) (meta : List Design) (i : String)
    (hm : ∀ d ∈ meta, 0 ≤ d.download_count) :
    ∀ d ∈ deltas.foldl
        (fun m inc =>
          match adjustLike m i inc with
          | .ok pr => pr.1
          | .error _ => m) meta,
      0 ≤ d.download_count := by
  induction deltas generalizing meta with
  | nil => simpa using hm
  | cons inc rest ih =>
      simp only [List.foldl_cons]
      cases ha : adjustLike meta i inc with
      | error s => simpa [ha] using ih meta hm
      | ok pr =>
          simp only [ha]
          exact ih pr.1 (adjustLike_step_nonneg meta i inc pr.1 pr.2 (by rw [ha]) hm)

/-! ## Claim theorems -/

/-- C1 (counterexample): a repeat `EndSession` call on a session whose
`end_time` is already set (here `some 100`) is not a no-op — the handler
overwrites `end_time` with the new now (`200`) and recomputes the
`event_count` snapshot, refuting the claimed idempotence invariant. -/
theorem endSession_repeat_not_noop :
    endSession
        [{ id := "s1", start_time := 0, end_time := some 100, client_version := "u",
           platform := "u", metadata := [], event_count := 0 }] [] (some "s1") 200
      = .ok ([{ id := "s1", start_time := 0, end_time := some 200, client_version := "u",
                platform := "u", metadata := [], event_count := 0 }],
             { id := "s1", start_time := 0, end_time := some 200, client_version := "u",
               platform := "u", metadata := [], event_count := 0 }) := by
  rfl

/-- C1 (amended): `EndSession` on an existing session id always succeeds
(also when `end_time` is already set — a repeat call is accepted, not an
error), but it is not a no-op: it unconditionally overwrites `end_time`
with now and recomputes the stored `event_count` snapshot at that instant;
on an absent id it fails with `NotFound`. -/
theorem endSession_overwrites (pre post : List ASession) (s : ASession)
    (events : List AEvent) (sid : String) (now : Int)
    (hpre : ∀ s' ∈ pre, s'.id ≠ sid) (hs : s.id = sid) (hsid : sid ≠ "") :
    endSession (pre ++ s :: post) events (some sid) now
      = .ok (pre ++ { s with
                        end_time := some now
                        event_count := (events.filter (fun e => e.session_id = sid)).length }
               :: post,
             { s with
                 end_time := some now
                 event_count := (events.filter (fun e => e.session_id = sid)).length })
  ∧ (∀ l : List ASession, (∀ s' ∈ l, s'.id ≠ sid) →
      endSession l events (some sid) now = .error "Session not found") := by
  constructor
  · simp only [endSession, if_neg hsid]
    rw [updateFirstSession_eq_some _ pre post s sid hpre hs]
  · intro l hl
    simp only [endSession, if_neg hsid]
    rw [updateFirstSession_eq_none _ l sid hl]

/-- C1 (witness for the amended theorem): concrete repeat end call on an
already-ended session. -/
theorem endSession_overwrites_witness :
    endSession
        [{ id := "s1", start_time := 0, end_time := some 100, client_version := "u",
           platform := "u", metadata := [], event_count := 3 }]
        [{ id := "e1", session_id := "s1", event_name := some "n", properties := some [],
           timestamp := 150, client_version := "u", platform := "u" }] (some "s1") 200
      = .ok ([{ id := "s1", start_time := 0, end_time := some 200, client_version := "u",
                platform := "u", metadata := [], event_count := 1 }],
             { id := "s1", start_time := 0, end_time := some 200, client_version := "u",
               platform := "u", metadata := [], event_count := 1 }) := by
  have h := endSession_overwrites []
      []
      { id := "s1", start_time := 0, end_time := some 100, client_version := "u",
        platform := "u", metadata := [], event_count := 3 }
      [{ id := "e1", session_id := "s1", event_name := some "n", properties := some [],
         timestamp := 150, client_version := "u", platform := "u" }]
      "s1" 200 (by simp) rfl (by decide)
  simpa using h.1

/-- C3 (counterexample): with the server clock at UTC−1 (`tz = -60`
minutes), an event at 00:30 UTC is not counted in `events.today` at
`now` = 02:00 UTC, although it lies after `now`'s UTC midnight: the
summary's day boundary is the server-local midnight, not the UTC one. -/
theorem summaryToday_not_utc_anchored :
    summaryEventsToday
        [{ id := "e1", session_id := "s", event_name := some "n", properties := some [],
           timestamp := 1800000, client_version := "u", platform := "u" }] 7200000 (-60) = 0
  ∧ countSince
        [{ id := "e1", session_id := "s", event_name := some "n", properties := some [],
           timestamp := 1800000, client_version := "u", platform := "u" }]
        (utcMidnight 7200000) = 1 := by
  exact ⟨by decide, by decide⟩

/-- C3 (amended): the summary's day windows are anchored at the most recent
SERVER-LOCAL midnight (`localMidnight`): `events.today` counts events with
timestamp at or after that anchor, `events.this_week` those at or after the
anchor minus 7 days, `events.this_month` those at or after the anchor minus
30 days (a fixed 30-day window). The anchor is at most `now`, less than a
day before it, and lies on a local day boundary; it coincides with `now`'s
UTC midnight exactly when the server runs at UTC offset 0. -/
theorem summary_windows_local_midnight (events : List AEvent) (now tz : Int) :
    summaryEventsToday events now tz = countSince events (localMidnight now tz)
  ∧ summaryEventsThisWeek events now tz
      = countSince events (localMidnight now tz - 7 * msPerDay)
  ∧ summaryEventsThisMonth events now tz
      = countSince events (localMidnight now tz - 30 * msPerDay)
  ∧ localMidnight now tz ≤ now
  ∧ now - localMidnight now tz < msPerDay
  ∧ (localMidnight now tz + tz * 60000) % msPerDay = 0
  ∧ localMidnight now 0 = utcMidnight now := by
  refine ⟨rfl, rfl, rfl, ?_, ?_, ?_, ?_⟩
  · simp only [localMidnight, msPerDay]
    omega
  · simp only [localMidnight, msPerDay]
    omega
  · simp only [localMidnight, msPerDay]
    omega
  · simp [localMidnight, utcMidnight]

/-- C7: `events_per_day` always has exactly 7 entries, their dates are
strictly ascending, and the counts sum to the number of events with
timestamp in the window from the summary's midnight anchor minus 6 days
(inclusive) to the anchor plus 1 day (exclusive). -/
theorem eventsPerDay_correct (events : List AEvent) (now tz : Int) :
    (eventsPerDay events now tz).length = 7
  ∧ ((eventsPerDay events now tz).map (fun q => q.1)).Pairwise (fun a b => a < b)
  ∧ ((eventsPerDay events now tz).map (fun q => q.2)).sum
      = countBetween events (localMidnight now tz - 6 * msPerDay)
          (localMidnight now tz + msPerDay) := by
  have hD : (0 : Int) < msPerDay := by norm_num [msPerDay]
  refine ⟨by simp [eventsPerDay], ?_, ?_⟩
  · generalize localMidnight now tz = M
    simp only [eventsPerDay, perDayEntry, List.map_cons, List.map_nil, msPerDay,
      List.pairwise_cons, List.mem_cons, List.not_mem_nil]
    norm_num
    omega
  · simp only [eventsPerDay, perDayEntry, List.map_cons, List.map_nil, List.sum_cons,
      List.sum_nil]
    generalize localMidnight now tz = M
    have e6 : M - 6 * msPerDay + msPerDay = M - 5 * msPerDay := by ring
    have e5 : M - 5 * msPerDay + msPerDay = M - 4 * msPerDay := by ring
    have e4 : M - 4 * msPerDay + msPerDay = M - 3 * msPerDay := by ring
    have e3 : M - 3 * msPerDay + msPerDay = M - 2 * msPerDay := by ring
    have e2 : M - 2 * msPerDay + msPerDay = M - 1 * msPerDay := by ring
    have e1 : M - 1 * msPerDay + msPerDay = M := by ring
    have e0 : M - 0 * msPerDay = M := by ring
    simp only [eventsPerDay, perDayEntry, List.map_cons, List.map_nil, List.sum_cons,
      List.sum_nil, e6, e5, e4, e3, e2, e1, e0]
    have s1 := countBetween_split events (M - 6 * msPerDay) (M - 5 * msPerDay)
      (M - 4 * msPerDay) (by omega) (by omega)
    have s2 := countBetween_split events (M - 6 * msPerDay) (M - 4 * msPerDay)
      (M - 3 * msPerDay) (by omega) (by omega)
    have s3 := countBetween_split events (M - 6 * msPerDay) (M - 3 * msPerDay)
      (M - 2 * msPerDay) (by omega) (by omega)
    have s4 := countBetween_split events (M - 6 * msPerDay) (M - 2 * msPerDay)
      (M - 1 * msPerDay) (by omega) (by omega)
    have s5 := countBetween_split events (M - 6 * msPerDay) (M - 1 * msPerDay)
      M (by omega) (by omega)
    have s6 := countBetween_split events (M - 6 * msPerDay) M
      (M + msPerDay) (by omega) (by omega)
    omega

/-- C10: `top_events` is the event-name frequency table truncated to its 10
most frequent entries: its length is the minimum of 10 and the number of
distinct event names in the log, hence never more than 10 even when more
than 10 distinct names occur. -/
theorem summaryTopEvents_truncated (events : List AEvent) :
    (summaryTopEvents events).length
      = min 10 (countKeys (events.map (fun e => e.event_name))).length
  ∧ (summaryTopEvents events).Pairwise (fun a b => b.2 ≤ a.2)
  ∧ (∀ q ∈ summaryTopEvents events,
      ∀ r ∈ (sortByCountDesc (countKeys (events.map (fun e => e.event_name)))).drop 10,
        r.2 ≤ q.2) := by
  refine ⟨?_, ?_, ?_⟩
  · simp only [summaryTopEvents, List.length_take]
    congr 1
    exact (sortByCountDesc_perm _).length_eq
  · exact List.Pairwise.sublist (List.take_sublist 10 _) (sortByCountDesc_sorted _)
  · intro q hq r hr
    have hL := sortByCountDesc_sorted (countKeys (events.map (fun e => e.event_name)))
    rw [← List.take_append_drop 10
      (sortByCountDesc (countKeys (events.map (fun e => e.event_name))))] at hL
    exact (List.pairwise_append.mp hL).2.2 q hq r hr

/-- C8: in a single-property breakdown every matching event contributes
exactly one counted value, so the counts sum to the number of matching
events; the table is sorted by count descending; every observed bucketed
value has an entry and no entry is dropped (the table length equals the
number of distinct bucketed values — no truncation). -/
theorem eventBreakdownSingle_correct (events : List AEvent) (name prop : String) :
    ((eventBreakdownSingle events name prop).map (fun q => q.2)).sum
      = (matchingEvents events name).length
  ∧ (eventBreakdownSingle events name prop).Pairwise (fun a b => b.2 ≤ a.2)
  ∧ (∀ e ∈ matchingEvents events name,
      ∃ q ∈ eventBreakdownSingle events name prop, q.1 = bucketValue prop e)
  ∧ (eventBreakdownSingle events name prop).length
      = (countKeys ((matchingEvents events name).map (bucketValue prop))).length := by
  refine ⟨?_, sortByCountDesc_sorted _, ?_, (sortByCountDesc_perm _).length_eq⟩
  · have hperm :=
      (sortByCountDesc_perm
        (countKeys ((matchingEvents events name).map (bucketValue prop)))).map
        (fun q => q.2)
    rw [eventBreakdownSingle, hperm.sum_eq, countKeys_sum, List.length_map]
  · intro e he
    have h1 : bucketValue prop e ∈ (matchingEvents events name).map (bucketValue prop) :=
      List.mem_map.mpr ⟨e, he, rfl⟩
    rcases List.mem_map.mp (countKeys_keys_of_mem _ _ h1) with ⟨q, hq, hqk⟩
    exact ⟨q, (sortByCountDesc_perm _).mem_iff.mpr hq, hqk⟩

/-- C9: a falsy property value (false, 0, empty string, or null) buckets to
the sentinel exactly as a missing property does: removing the falsy-valued
property from the event leaves the breakdown unchanged, the event's bucket
value is the sentinel, and every non-sentinel entry of any breakdown stems
from a truthy value of some matching event. -/
theorem falsy_bucketed_as_empty (pre post : List AEvent) (e : AEvent)
    (ps : List (String × JSVal)) (v : JSVal) (name prop : String)
    (hps : e.properties = some ps) (hv : getProp ps prop = some v)
    (hf : v.truthy = false) :
    eventBreakdownSingle (pre ++ e :: post) name prop
      = eventBreakdownSingle
          (pre ++ { e with properties := some (removeProp ps prop) } :: post) name prop
  ∧ bucketValue prop e = "(empty)"
  ∧ (∀ events : List AEvent, ∀ q ∈ eventBreakdownSingle events name prop,
      q.1 ≠ "(empty)" →
        ∃ e' ∈ matchingEvents events name, ∃ ps' v', e'.properties = some ps'
          ∧ getProp ps' prop = some v' ∧ v'.truthy = true ∧ JSVal.keyString v' = q.1) := by
  have hbe : bucketValue prop e = "(empty)" := by
    simp [bucketValue, hps, hv, hf]
  have hbe' : bucketValue prop { e with properties := some (removeProp ps prop) }
      = "(empty)" := by
    simp [bucketValue, getProp_removeProp]
  refine ⟨?_, hbe, ?_⟩
  · suffices hmm :
        (matchingEvents (pre ++ e :: post) name).map (bucketValue prop)
          = (matchingEvents
              (pre ++ { e with properties := some (removeProp ps prop) } :: post) name).map
              (bucketValue prop) by
      simp only [eventBreakdownSingle, hmm]
    have hm2 : ({ e with properties := some (removeProp ps prop) } : AEvent).event_name
        = e.event_name := rfl
    by_cases hm : e.event_name = some name
    · have hc1 : (decide (e.event_name = some name)) = true := by simp [hm]
      have hc2 : (decide (({ e with properties := some (removeProp ps prop) } :
          AEvent).event_name = some name)) = true := by rw [hm2]; simp [hm]
      simp only [matchingEvents, List.filter_append, List.filter_cons, hc1, hc2, if_true,
        List.map_append, List.map_cons, hbe, hbe']
    · have hc1 : (decide (e.event_name = some name)) = false := by simp [hm]
      have hc2 : (decide (({ e with properties := some (removeProp ps prop) } :
          AEvent).event_name = some name)) = false := by rw [hm2]; simp [hm]
      simp only [matchingEvents, List.filter_append, List.filter_cons, hc1, hc2,
        Bool.false_eq_true, if_false]
  · intro events q hq hne
    have hq' : q ∈ countKeys ((matchingEvents events name).map (bucketValue prop)) :=
      (sortByCountDesc_perm _).mem_iff.mp hq
    rcases List.mem_map.mp (mem_countKeys_keys_sub _ q hq') with ⟨e', he', hb⟩
    refine ⟨e', he', ?_⟩
    rcases hps' : e'.properties with _ | ps'
    · exfalso
      apply hne
      rw [← hb]
      simp [bucketValue, hps']
    · rcases hv' : getProp ps' prop with _ | v'
      · exfalso
        apply hne
        rw [← hb]
        simp [bucketValue, hps', hv']
      · by_cases ht : v'.truthy = true
        · refine ⟨ps', v', rfl, hv', ht, ?_⟩
          rw [← hb]
          simp [bucketValue, hps', hv', ht]
        · exfalso
          apply hne
          rw [← hb]
          simp [bucketValue, hps', hv', ht]

/-- C9 (witness): an event whose `level` property is the falsy number `0`
is bucketed exactly as if `level` were absent. -/
theorem falsy_bucketed_as_empty_witness :
    eventBreakdownSingle
        [{ id := "1", session_id := "s", event_name := some "n",
           properties := some [("level", JSVal.num 0)], timestamp := 0,
           client_version := "u", platform := "u" }] "n" "level"
      = eventBreakdownSingle
          [{ id := "1", session_id := "s", event_name := some "n",
             properties := some (removeProp [("level", JSVal.num 0)] "level"),
             timestamp := 0, client_version := "u", platform := "u" }] "n" "level" := by
  exact (falsy_bucketed_as_empty [] []
      { id := "1", session_id := "s", event_name := some "n",
        properties := some [("level", JSVal.num 0)], timestamp := 0,
        client_version := "u", platform := "u" }
      [("level", JSVal.num 0)] (JSVal.num 0) "n" "level" rfl (by decide) (by decide)).1

/-- C2: re-upserting an existing design id takes the update branch in
place, preserves `download_count` exactly, replaces title, description,
author, level and the event flag with the request's values, stamps
`upload_date` with now (hence at or after the previous value), and leaves
`thumbnail_url` unchanged unless the request supplies a (nonempty)
thumbnail URL, in which case it is replaced. -/
theorem upsert_update_correct (pre post : List Design) (ex : Design) (req : UploadReq)
    (files : List String) (now : Int) (fresh fid t : String)
    (hid : req.designId = some fid) (hfid : fid ≠ "")
    (ht : req.title = some t) (htne : t ≠ "")
    (hsave : req.hasSaveData = true)
    (hpre : ∀ d ∈ pre, d.id ≠ fid) (hex : ex.id = fid)
    (hdate : ex.upload_date ≤ now) :
    designUpsert ⟨pre ++ ex :: post, files⟩ req now fresh
      = .ok (⟨pre ++ mergeDesign req now fid ex :: post,
              if fid ∈ files then files else files ++ [fid]⟩, true)
  ∧ (mergeDesign req now fid ex).download_count = ex.download_count
  ∧ (mergeDesign req now fid ex).title = t
  ∧ (∀ ds, req.description = some ds → (mergeDesign req now fid ex).description = ds)
  ∧ (∀ an, req.authorName = some an → an ≠ "" →
      (mergeDesign req now fid ex).author_name = an)
  ∧ (∀ lv, req.level = some lv → (mergeDesign req now fid ex).level = lv)
  ∧ (∀ b, req.christmasEvent = some b → (mergeDesign req now fid ex).christmas_event = b)
  ∧ (mergeDesign req now fid ex).upload_date = now
  ∧ ex.upload_date ≤ (mergeDesign req now fid ex).upload_date
  ∧ (req.thumbnailUrl = none →
      (mergeDesign req now fid ex).thumbnail_url = ex.thumbnail_url)
  ∧ (∀ u, req.thumbnailUrl = some u → u ≠ "" →
      (mergeDesign req now fid ex).thumbnail_url = some u) := by
  refine ⟨?_, rfl, ?_, ?_, ?_, ?_, ?_, rfl, hdate, ?_, ?_⟩
  · have hval : ¬ (jsOr req.title "" = "" ∨ (!req.hasSaveData) = true) := by
      simp [jsOr, ht, htne, hsave]
    have hjid : jsOr req.designId fresh = fid := by simp [jsOr, hid, hfid]
    have hup := updateFirst_eq_some (mergeDesign req now fid) pre post ex fid hpre hex
    simp only [designUpsert, hjid, hup, if_neg hval]
  · simp [mergeDesign, jsOr, ht, htne]
  · intro ds hds
    by_cases h : ds = "" <;> simp [mergeDesign, jsOr, hds, h]
  · intro an han hanne
    simp [mergeDesign, jsOr, han, hanne]
  · intro lv hlv
    by_cases h : lv = "" <;> simp [mergeDesign, jsOr, hlv, h]
  · intro b hb
    cases b <;> simp [mergeDesign, hb]
  · intro hnone
    simp [mergeDesign, hnone]
  · intro u hu hune
    simp [mergeDesign, hu, hune]

/-- C2 (witness): concrete re-upsert of design `d1` with a new title and a
new thumbnail; the counter is preserved and the thumbnail replaced. -/
theorem upsert_update_correct_witness :
    designUpsert
        ⟨[{ id := "d1", title := "Cozy Loft", description := "", author_name := "Ann",
            level := "Berlin", download_count := 7, upload_date := 1000,
            thumbnail_url := some "/api/thumbnails/old.png", christmas_event := false }],
         ["d1"]⟩
        { designId := some "d1", title := some "Cozy Loft v2", hasSaveData := true,
          description := some "new", authorName := some "Ann", level := some "Berlin",
          thumbnailUrl := some "/api/thumbnails/d1.png", christmasEvent := some true }
        2000 "freshid"
      = .ok (⟨[{ id := "d1", title := "Cozy Loft v2", description := "new",
                 author_name := "Ann", level := "Berlin", download_count := 7,
                 upload_date := 2000, thumbnail_url := some "/api/thumbnails/d1.png",
                 christmas_event := true }], ["d1"]⟩, true) := by
  have h := upsert_update_correct []
      []
      { id := "d1", title := "Cozy Loft", description := "", author_name := "Ann",
        level := "Berlin", download_count := 7, upload_date := 1000,
        thumbnail_url := some "/api/thumbnails/old.png", christmas_event := false }
      { designId := some "d1", title := some "Cozy Loft v2", hasSaveData := true,
        description := some "new", authorName := some "Ann", level := some "Berlin",
        thumbnailUrl := some "/api/thumbnails/d1.png", christmasEvent := some true }
      ["d1"] 2000 "freshid" "d1" "Cozy Loft v2" rfl (by decide) rfl (by decide) rfl
      (by simp) rfl (by decide)
  exact h.1

/-- C4: with the blob file present exactly for stored design ids (the
coupling the upload handler establishes), a download of an absent id fails
with `NotFound`, and a download of a present id increments that record's
`download_count` by exactly 1, persists the collection, and returns the
updated record. -/
theorem incrementDownload_correct (s : DesignsState) (designId : String)
    (pre post : List Design) (d : Design)
    (hc : designId ∈ s.files ↔ ∃ d' ∈ s.metadata, d'.id = designId) :
    ((∀ d' ∈ s.metadata, d'.id ≠ designId) →
        designDownload s designId = .error "Design not found")
  ∧ (s.metadata = pre ++ d :: post → (∀ d' ∈ pre, d'.id ≠ designId) → d.id = designId →
        designDownload s designId
          = .ok ⟨⟨pre ++ { d with download_count := d.download_count + 1 } :: post,
                  s.files⟩,
                 some { d with download_count := d.download_count + 1 }⟩) := by
  constructor
  · intro habs
    have hnf : designId ∉ s.files := by
      intro hin
      rcases hc.mp hin with ⟨d', hd', hdid⟩
      exact habs d' hd' hdid
    simp [designDownload, hnf]
  · intro hm hpre hd
    have hin : designId ∈ s.files := hc.mpr ⟨d, by rw [hm]; simp, hd⟩
    simp only [designDownload, if_pos hin, hm]
    rw [updateFirst_eq_some _ pre post d designId hpre hd]

/-- C4 (witness): a concrete absent id yields `NotFound`; a concrete
present id gets its counter bumped from 3 to 4 and the updated record
returned. -/
theorem incrementDownload_correct_witness :
    designDownload ⟨[], []⟩ "nope" = .error "Design not found"
  ∧ designDownload
        ⟨[{ id := "d1", title := "t", description := "", author_name := "a", level := "",
            download_count := 3, upload_date := 0, thumbnail_url := none,
            christmas_event := false }], ["d1"]⟩ "d1"
      = .ok ⟨⟨[{ id := "d1", title := "t", description := "", author_name := "a",
                 level := "", download_count := 4, upload_date := 0, thumbnail_url := none,
                 christmas_event := false }], ["d1"]⟩,
             some { id := "d1", title := "t", description := "", author_name := "a",
                    level := "", download_count := 4, upload_date := 0,
                    thumbnail_url := none, christmas_event := false }⟩ := by
  constructor
  · exact (incrementDownload_correct ⟨[], []⟩ "nope" []
        []
        { id := "x", title := "t", description := "", author_name := "a", level := "",
          download_count := 0, upload_date := 0, thumbnail_url := none,
          christmas_event := false } (by simp)).1 (by simp)
  · exact (incrementDownload_correct
        ⟨[{ id := "d1", title := "t", description := "", author_name := "a", level := "",
            download_count := 3, upload_date := 0, thumbnail_url := none,
            christmas_event := false }], ["d1"]⟩ "d1" []
        []
        { id := "d1", title := "t", description := "", author_name := "a", level := "",
          download_count := 3, upload_date := 0, thumbnail_url := none,
          christmas_event := false } (by simp)).2 rfl (by simp) rfl

/-- C6: a like adjustment on an absent id fails with `NotFound`; on a
present id it sets the counter to `max 0 (previous + delta)` (never
negative) and returns the new count; and any sequence of adjustments keeps
every stored counter nonnegative. -/
theorem adjustLike_correct (meta : List Design) (designId : String) (inc : Int)
    (pre post : List Design) (d : Design) (deltas : List Int) :
    ((∀ d' ∈ meta, d'.id ≠ designId) →
        adjustLike meta designId inc = .error "Design not found")
  ∧ (meta = pre ++ d :: post → (∀ d' ∈ pre, d'.id ≠ designId) → d.id = designId →
        adjustLike meta designId inc
          = .ok (pre ++ likeUpdate inc d :: post, (likeUpdate inc d).download_count)
        ∧ (likeUpdate inc d).download_count = max 0 (d.download_count + inc)
        ∧ 0 ≤ (likeUpdate inc d).download_count)
  ∧ ((∀ d' ∈ meta, 0 ≤ d'.download_count) →
        ∀ d' ∈ deltas.foldl
            (fun m i =>
              match adjustLike m designId i with
              | .ok pr => pr.1
              | .error _ => m) meta,
          0 ≤ d'.download_count) := by
  refine ⟨?_, ?_, ?_⟩
  · intro habs
    simp only [adjustLike]
    rw [updateFirst_eq_none _ meta designId habs]
  · intro hm hpre hd
    refine ⟨?_, ?_, likeUpdate_nonneg inc d⟩
    · simp only [adjustLike, hm]
      rw [updateFirst_eq_some _ pre post d designId hpre hd]
    · simp only [likeUpdate]
      by_cases h : d.download_count + inc < 0
      · simp [h]
        omega
      · simp [h]
        omega
  · exact adjustLike_fold_nonneg deltas meta designId

/-- C6 (witness): concrete runs — absent id errors; `AdjustLike("d1", -5)`
on a count of 2 clamps to 0; a repeated negative sequence keeps the stored
counter nonnegative. -/
theorem adjustLike_correct_witness :
    adjustLike [] "nope" 1 = .error "Design not found"
  ∧ adjustLike
        [{ id := "d1", title := "t", description := "", author_name := "a", level := "",
           download_count := 2, upload_date := 0, thumbnail_url := none,
           christmas_event := false }] "d1" (-5)
      = .ok ([{ id := "d1", title := "t", description := "", author_name := "a",
                level := "", download_count := 0, upload_date := 0, thumbnail_url := none,
                christmas_event := false }], 0) := by
  constructor
  · exact (adjustLike_correct [] "nope" 1 []
        []
        { id := "x", title := "t", description := "", author_name := "a", level := "",
          download_count := 0, upload_date := 0, thumbnail_url := none,
          christmas_event := false } []).1 (by simp)
  · have h := ((adjustLike_correct
        [{ id := "d1", title := "t", description := "", author_name := "a", level := "",
           download_count := 2, upload_date := 0, thumbnail_url := none,
           christmas_event := false }] "d1" (-5) []
        []
        { id := "d1", title := "t", description := "", author_name := "a", level := "",
          download_count := 2, upload_date := 0, thumbnail_url := none,
          christmas_event := false } []).2.1 rfl (by simp) rfl).1
    exact h

/-- C5 (counterexample): a batch whose single element has no `event_name`
is accepted — the handler appends it (with the name stored absent) and
reports success instead of failing with a `ValidationError`. -/
theorem appendBatch_no_name_validation :
    appendBatch []
        (some [{ session_id := none, event_name := none, properties := none,
                 timestamp := none, client_version := none, platform := none }])
        none none none 0 (fun _ => "id0")
      = .ok ([{ id := "id0", session_id := "anonymous", event_name := none,
                properties := some [], timestamp := 0, client_version := "unknown",
                platform := "unknown" }], 1) := by
  rfl

/-- C5 (amended): `AppendEvent` fails with `ValidationError` exactly when
`event_name` is absent or empty and otherwise appends one event with
defaults filled and the fresh id; `AppendBatch` validates only the presence
of the events array — it never rejects an element for a missing
`event_name` (names are copied through unvalidated, missing ones stored
absent), fills defaults with batch-level values taking precedence over the
hard fallbacks, assigns a fresh id per element, and appends them all. -/
theorem append_defaults_correct (events : List AEvent) (req : EventReq)
    (l : List EventReq) (sid cv pf : Option String) (now : Int)
    (fresh1 : String) (fresh : Nat → String) (n : String) :
    (req.event_name = none →
        appendEvent events req now fresh1 = .error "event_name is required")
  ∧ (req.event_name = some "" →
        appendEvent events req now fresh1 = .error "event_name is required")
  ∧ (req.event_name = some n → n ≠ "" →
        appendEvent events req now fresh1
          = .ok (events ++ [{ id := fresh1,
                              session_id := jsOr req.session_id "anonymous",
                              event_name := some n,
                              properties := some (req.properties.getD []),
                              timestamp := now,
                              client_version := jsOr req.client_version "unknown",
                              platform := jsOr req.platform "unknown" }], fresh1))
  ∧ appendBatch events none sid cv pf now fresh = .error "events array is required"
  ∧ appendBatch events (some l) sid cv pf now fresh
      = .ok (events ++ batchProcess sid cv pf now fresh 0 l, l.length)
  ∧ (batchProcess sid cv pf now fresh 0 l).map (fun ev => ev.event_name)
      = l.map (fun e => e.event_name) := by
  refine ⟨?_, ?_, ?_, rfl, ?_, batchProcess_names sid cv pf now fresh 0 l⟩
  · intro h
    simp [appendEvent, h]
  · intro h
    simp [appendEvent, h]
  · intro h hn
    simp [appendEvent, h, hn]
  · simp [appendBatch, batchProcess_length]

/-- C5 (witness): a concrete nameless single event is rejected; a concrete
named single event is appended with all defaults filled; a concrete batch
element keeps a missing name. -/
theorem append_defaults_correct_witness :
    appendEvent []
        { session_id := none, event_name := none, properties := none, timestamp := none,
          client_version := none, platform := none } 5 "f1"
      = .error "event_name is required"
  ∧ appendEvent []
        { session_id := none, event_name := some "boot", properties := none,
          timestamp := none, client_version := none, platform := none } 5 "f1"
      = .ok ([{ id := "f1", session_id := "anonymous", event_name := some "boot",
                properties := some [], timestamp := 5, client_version := "unknown",
                platform := "unknown" }], "f1") := by
  constructor
  · exact (append_defaults_correct []
        { session_id := none, event_name := none, properties := none, timestamp := none,
          client_version := none, platform := none } [] none none none 5 "f1"
        (fun _ => "f1") "boot").1 rfl
  · exact (append_defaults_correct []
        { session_id := none, event_name := some "boot", properties := none,
          timestamp := none, client_version := none, platform := none } [] none none none
        5 "f1" (fun _ => "f1") "boot").2.2.1 rfl (by decide)

/-- C3 (witness): concrete anchor facts at `now` = 02:00 UTC with the
server at UTC−1. -/
theorem summary_windows_local_midnight_witness :
    summaryEventsToday [] 7200000 (-60) = countSince [] (localMidnight 7200000 (-60))
  ∧ localMidnight 7200000 (-60) ≤ 7200000 := by
  have h := summary_windows_local_midnight [] 7200000 (-60)
  exact ⟨h.1, h.2.2.2.1⟩

/-- C7 (witness): concrete 7-entry check with one event inside the
window. -/
theorem eventsPerDay_correct_witness :
    (eventsPerDay
        [{ id := "1", session_id := "s", event_name := some "n", properties := some [],
           timestamp := 1000, client_version := "u", platform := "u" }] 7200000 0).length = 7
  ∧ ((eventsPerDay
        [{ id := "1", session_id := "s", event_name := some "n", properties := some [],
           timestamp := 1000, client_version := "u", platform := "u" }] 7200000 0).map
        (fun q => q.2)).sum
      = countBetween
          [{ id := "1", session_id := "s", event_name := some "n", properties := some [],
             timestamp := 1000, client_version := "u", platform := "u" }]
          (localMidnight 7200000 0 - 6 * msPerDay) (localMidnight 7200000 0 + msPerDay) := by
  have h := eventsPerDay_correct
      [{ id := "1", session_id := "s", event_name := some "n", properties := some [],
         timestamp := 1000, client_version := "u", platform := "u" }] 7200000 0
  exact ⟨h.1, h.2.2⟩

/-- C8 (witness): concrete breakdown over three `LevelComplete` events
whose counts sum to 3. -/
theorem eventBreakdownSingle_correct_witness :
    ((eventBreakdownSingle
        [{ id := "1", session_id := "s", event_name := some "LevelComplete",
           properties := some [("level", JSVal.str "Berlin")], timestamp := 0,
           client_version := "u", platform := "u" },
         { id := "2", session_id := "s", event_name := some "LevelComplete",
           properties := some [("level", JSVal.str "Berlin")], timestamp := 0,
           client_version := "u", platform := "u" },
         { id := "3", session_id := "s", event_name := some "LevelComplete",
           properties := some [("level", JSVal.str "Tokyo")], timestamp := 0,
           client_version := "u", platform := "u" }] "LevelComplete" "level").map
        (fun q => q.2)).sum
      = (matchingEvents
          [{ id := "1", session_id := "s", event_name := some "LevelComplete",
             properties := some [("level", JSVal.str "Berlin")], timestamp := 0,
             client_version := "u", platform := "u" },
           { id := "2", session_id := "s", event_name := some "LevelComplete",
             properties := some [("level", JSVal.str "Berlin")], timestamp := 0,
             client_version := "u", platform := "u" },
           { id := "3", session_id := "s", event_name := some "LevelComplete",
             properties := some [("level", JSVal.str "Tokyo")], timestamp := 0,
             client_version := "u", platform := "u" }] "LevelComplete").length := by
  exact (eventBreakdownSingle_correct
      [{ id := "1", session_id := "s", event_name := some "LevelComplete",
         properties := some [("level", JSVal.str "Berlin")], timestamp := 0,
         client_version := "u", platform := "u" },
       { id := "2", session_id := "s", event_name := some "LevelComplete",
         properties := some [("level", JSVal.str "Berlin")], timestamp := 0,
         client_version := "u", platform := "u" },
       { id := "3", session_id := "s", event_name := some "LevelComplete",
         properties := some [("level", JSVal.str "Tokyo")], timestamp := 0,
         client_version := "u", platform := "u" }] "LevelComplete" "level").1

/-- C10 (witness): concrete length bound for a two-name log. -/
theorem summaryTopEvents_truncated_witness :
    (summaryTopEvents
        [{ id := "1", session_id := "s", event_name := some "a", properties := some [],
           timestamp := 0, client_version := "u", platform := "u" },
         { id := "2", session_id := "s", event_name := some "b", properties := some [],
           timestamp := 0, client_version := "u", platform := "u" }]).length
      = min 10 (countKeys
          (([{ id := "1", session_id := "s", event_name := some "a", properties := some [],
               timestamp := 0, client_version := "u", platform := "u" },
             { id := "2", session_id := "s", event_name := some "b", properties := some [],
               timestamp := 0, client_version := "u", platform := "u" }] : List AEvent).map
            (fun e => e.event_name))).length := by
  exact (summaryTopEvents_truncated
      [{ id := "1", session_id := "s", event_name := some "a", properties := some [],
         timestamp := 0, client_version := "u", platform := "u" },
       { id := "2", session_id := "s", event_name := some "b", properties := some [],
         timestamp := 0, client_version := "u", platform := "u" }]).1

end SmallSpaces
